import Mathlib

/-!
Verification of the catcher_rover frame-exchange protocol and its flanking
algorithms, as implemented in the repository sources (socks.py, main.py,
main_client.py, rover.py, pydarknet.py).

Wire messages and frames are modelled as lists of byte values (List Nat),
which is what the Python code sends and receives. Blocking socket loops are
modelled with an explicit fuel parameter; a result of none means the loop
has not returned within the given fuel (the loops in the source have no
escape hatch, so divergence is proved as "none for every fuel").
-/

namespace CatcherRover

/-- Exception values. The first three model Python built-in exceptions that
the source can raise (ValueError from int(), TypeError from tuple minus
bytes, IndexError from list indexing). The last three model the error
classes named by the specification (ProtocolError, TruncatedFrameError,
Timeout); no such classes exist anywhere in the repository, and the
theorems below show the code never produces them. -/
inductive PyError where
  | valueError
  | typeError
  | indexError
  | protocolError
  | truncatedFrameError
  | timeout
deriving DecidableEq

/-- Decidable equality for Except values, needed to evaluate the modelled
exchange outcomes on concrete inputs. -/
instance instDecEqExcept {ε α : Type} [DecidableEq ε] [DecidableEq α] :
    DecidableEq (Except ε α)
  | .ok a, .ok b =>
    if h : a = b then isTrue (by rw [h])
    else isFalse (by intro hh; cases hh; exact h rfl)
  | .ok _, .error _ => isFalse (by intro h; cases h)
  | .error _, .ok _ => isFalse (by intro h; cases h)
  | .error e, .error f =>
    if h : e = f then isTrue (by rw [h])
    else isFalse (by intro hh; cases hh; exact h rfl)

/-- ASCII byte values of a string literal, used to write wire messages such
as "OK FRAME" as byte lists. -/
def strBytes (s : String) : List Nat :=
  s.data.map Char.toNat

/-- Structural helper for toDigitsRev: the first argument is fuel, always
called with at least the value of the second argument. -/
def toDigitsRevAux : Nat → Nat → List Nat
  | 0, _ => []
  | _, 0 => []
  | fuel + 1, n + 1 => (n + 1) % 10 :: toDigitsRevAux fuel ((n + 1) / 10)

/-- Decimal digits of n, least significant first (empty for 0). Helper for
the decimal-ASCII serialization performed by str(n) in Python. -/
def toDigitsRev (n : Nat) : List Nat :=
  toDigitsRevAux n n

/-- Byte encoding of the decimal-ASCII representation of a natural number:
models str(n).encode('ascii') for a non-negative Python int n. -/
def natToDecimalBytes (n : Nat) : List Nat :=
  if n = 0 then [48] else (toDigitsRev n).reverse.map (fun d => 48 + d)

/-- Models send_frame_size in socks.py lines 85-103: the client sends the
decimal-ASCII representation of the frame byte length as one message. -/
def sendFrameSizeMsg (frameLen : Nat) : List Nat :=
  natToDecimalBytes frameLen

/-- Value of an ASCII digit byte; none for a non-digit byte. -/
def digitVal (b : Nat) : Option Nat :=
  if 48 ≤ b ∧ b ≤ 57 then some (b - 48) else none

/-- Left-to-right accumulation of decimal digit bytes; none as soon as a
non-digit byte is met. -/
def parseDigitsAux (acc : Nat) : List Nat → Option Nat
  | [] => some acc
  | b :: rest =>
    match digitVal b with
    | none => none
    | some d => parseDigitsAux (10 * acc + d) rest

/-- Parse a non-empty all-digit byte string as a natural number. -/
def parseDigits (s : List Nat) : Option Nat :=
  if s = [] then none else parseDigitsAux 0 s

/-- Models the Python built-in int() applied to a decoded message: an
optional leading minus sign followed by at least one decimal digit; none
models int() raising ValueError. -/
def pyInt (s : List Nat) : Option Int :=
  if s.headD 0 = 45 then (parseDigits s.tail).map (fun n => -(n : Int))
  else (parseDigits s).map (fun n => (n : Int))

/-- Models receive_bytes_to_string in socks.py lines 67-82: the received
bytes are decoded and every newline character is removed (the replace call
removes all occurrences). -/
def receiveBytesToString (msg : List Nat) : List Nat :=
  msg.filter (fun b => b ≠ 10)

/-- Models the size-header read of start_server, main.py line 110:
frame_size = int(socks.receive_bytes_to_string(client)). There is no
try/except around the call, so a ValueError from int() propagates to the
caller uncaught; the code never raises a ProtocolError. -/
def serverParseSize (msg : List Nat) : Except PyError Int :=
  match pyInt (receiveBytesToString msg) with
  | none => .error .valueError
  | some n => .ok n

/-- Models one filedesc.readline(1024) call on a binary file in send_frame,
socks.py line 118: it yields bytes up to and including the first newline
byte, but at most k bytes; empty when the remaining input is empty. -/
def readlineAux : Nat → List Nat → List Nat
  | 0, _ => []
  | _, [] => []
  | k + 1, b :: rest => if b = 10 then [b] else b :: readlineAux k rest

/-- The chunk produced by one readline(1024) call in send_frame. -/
def readlineChunk (l : List Nat) : List Nat :=
  readlineAux 1024 l

/-- Structural helper for sendFrameChunks: the first argument is fuel,
always called with at least the length of the remaining input (every chunk
removes at least one byte). -/
def sendFrameChunksAux : Nat → List Nat → List (List Nat)
  | 0, _ => []
  | fuel + 1, l =>
    if l = [] then []
    else readlineChunk l :: sendFrameChunksAux fuel (l.drop (readlineChunk l).length)

/-- Models send_frame in socks.py lines 106-122: the frame file is read in
readline(1024) chunks and each chunk is sent with one send call, until a
read returns no bytes. The result is the list of sent chunks in order. -/
def sendFrameChunks (l : List Nat) : List (List Nat) :=
  sendFrameChunksAux l.length l

/-- The byte stream produced on the wire by send_frame: the concatenation
of the sent chunks. -/
def sendFrameStream (l : List Nat) : List Nat :=
  (sendFrameChunks l).flatten

/-- State of the receive_frame loop in socks.py lines 143-153: the unread
part of the incoming byte stream (empty once the peer has closed, in which
case every recv returns no bytes), the announced frame size and the running
byte count (Python ints), and the bytes written to the frame file so far. -/
structure RecvState where
  stream : List Nat
  frameSize : Int
  imgSize : Int
  fileBytes : List Nat
deriving DecidableEq

/-- The byte count requested from recv by one loop iteration, socks.py
lines 147-151: recv(remain) when remain is less than 1024, else recv(1024). -/
def recvRequest (remain : Int) : Int :=
  if remain < 1024 then remain else 1024

/-- One iteration of the receive_frame while loop (socks.py lines 146-153)
when the loop condition img_size less than frame_size holds; recv is
modelled as returning the first min(requested, available) bytes of the
stream, so an exhausted stream yields an empty read, exactly as recv on a
connection closed by the peer. -/
def receiveStep (st : RecvState) : RecvState :=
  if st.imgSize < st.frameSize then
    let remain := st.frameSize - st.imgSize
    let req := (recvRequest remain).toNat
    let data := st.stream.take req
    ⟨st.stream.drop req, st.frameSize, st.imgSize + data.length, st.fileBytes ++ data⟩
  else st

/-- The receive_frame loop with explicit fuel: some (fileBytes, rest) when
the loop exits within the given number of iterations, none when it has not
returned. The source loop has no other exit and raises nothing. -/
def receiveFrameFuel : Nat → RecvState → Option (List Nat × List Nat)
  | 0, _ => none
  | fuel + 1, st =>
    if st.imgSize < st.frameSize then receiveFrameFuel fuel (receiveStep st)
    else some (st.fileBytes, st.stream)

/-- Models receive_frame in socks.py lines 125-153 from its entry point:
img_size starts at 0 and the frame file starts empty. -/
def receiveFrame0 (fuel : Nat) (stream : List Nat) (frameSize : Int) :
    Option (List Nat × List Nat) :=
  receiveFrameFuel fuel ⟨stream, frameSize, 0, []⟩

/-- The acknowledgment token compared against in waiting_for_ack, socks.py
line 168: the literal "OK " followed by the expected type. -/
def ackMsg (exptype : List Nat) : List Nat :=
  strBytes "OK " ++ exptype

/-- Models waiting_for_ack in socks.py lines 156-169 with explicit fuel:
messages are read one per recv; a non-matching message is discarded and the
loop polls again. Once the list is exhausted (peer silent or connection
closed) every further recv yields the empty message, which never matches.
some rest means the expected ack arrived with rest left unread; none means
the loop is still polling after the given number of reads. The source loop
has no timeout and no error exit. -/
def waitingForAckFuel : Nat → List (List Nat) → List Nat → Option (List (List Nat))
  | 0, _, _ => none
  | fuel + 1, msgs, exptype =>
    if msgs.headD [] = ackMsg exptype then some msgs.tail
    else waitingForAckFuel fuel msgs.tail exptype

/-- One entry of the detect output in pydarknet.py lines 370-376: the class
name bytes (meta.names), the confidence, and the bounding box values taken
from the DETECTION struct. Confidences are modelled as rationals. -/
structure DetEntry where
  label : List Nat
  conf : ℚ
  bbox : Int × Int × Int × Int
deriving DecidableEq

/-- Stable insertion used to model the Python sorted call: an element moves
past exactly the elements of strictly higher confidence, so equal
confidences keep their original order. -/
def pyInsertByConfDesc (x : DetEntry) : List DetEntry → List DetEntry
  | [] => [x]
  | y :: ys => if x.conf < y.conf then y :: pyInsertByConfDesc x ys else x :: y :: ys

/-- Models sorted(res, key=lambda x: -x[1]) in pydarknet.py line 378: the
detection list ordered by confidence descending, stable (Python sorted is
stable, so ties keep detection order). -/
def pySortedByConfDesc : List DetEntry → List DetEntry
  | [] => []
  | x :: xs => pyInsertByConfDesc x (pySortedByConfDesc xs)

/-- Models compute_translation_vector in main.py lines 57-82 as invoked by
start_server line 123, where the whole sorted detection list is passed as
the results argument. The expression results[2] then selects the third
(label, confidence, bbox) tuple of the list, raising IndexError when the
list has fewer than three entries; int(results[2][0]) converts the label
bytes, raising ValueError when the label is not numeric; and the
subtraction results[2][2] - results[2][0] subtracts bytes from a tuple,
raising TypeError. The get_image_size call on line 71 happens first and
succeeds; it does not affect the outcome. -/
def computeTranslationVectorList (results : List DetEntry) : Except PyError (Int × Int) :=
  match results.get? 2 with
  | none => .error .indexError
  | some e =>
    match pyInt e.label with
    | none => .error .valueError
    | some _ => .error .typeError

/-- Models compute_translation_vector in main.py lines 57-82 applied to the
argument its docstring specifies: a single (label, confidence, coordinate
tuple) detection, so that results[2] is the coordinate 4-tuple. Python's
int(v/2) on these pixel values is truncating division, Int.tdiv. The image
dimensions returned by utils.get_image_size (width, height) are passed as
imShape. -/
def computeTranslationVector (results : DetEntry) (imShape : Int × Int) : Int × Int :=
  let imXcenter := Int.tdiv imShape.1 2
  let imYcenter := Int.tdiv imShape.2 2
  let resXcenter := results.bbox.1 + Int.tdiv (results.bbox.2.2.1 - results.bbox.1) 2
  let resYcenter := results.bbox.2.1 + Int.tdiv (results.bbox.2.2.2 - results.bbox.2.1) 2
  (resXcenter - imXcenter, resYcenter - imYcenter)

/-- Models Rover.channel_override in rover.py lines 128-142: each channel
value is 1500 plus the input, clamped into the interval 1000 to 2000, and
the pair (steering, throttle) is issued to the vehicle. -/
def channel_override (yaw speed : Int) : Int × Int :=
  (min (max (1500 + yaw) 1000) 2000, min (max (1500 + speed) 1000) 2000)

/-- Byte encoding of the decimal representation of a Python int, sign
included: models str(i).encode('ascii'). -/
def intToDecimalBytes (i : Int) : List Nat :=
  if i < 0 then 45 :: natToDecimalBytes i.natAbs else natToDecimalBytes i.toNat

/-- Models str applied to the translation vector pair as sent by send_msg:
str((dx, dy)) produces an opening parenthesis, dx, a comma and a space, dy,
and a closing parenthesis. -/
def pyStrPair (v : Int × Int) : List Nat :=
  [40] ++ intToDecimalBytes v.1 ++ [44, 32] ++ intToDecimalBytes v.2 ++ [41]

/-- Models str([]) as sent by send_msg when the detection list is empty:
the two bytes of the empty-collection token. -/
def emptyListMsg : List Nat :=
  strBytes "[]"

/-- External inputs of one accepted connection in start_server: the size
header message, the frame byte stream, the detector output for the received
frame (the detector is an external collaborator, so its result is an input
of the model), and the messages the client sends while the server waits for
the OK VECT acknowledgment. -/
structure Conn where
  headerMsg : List Nat
  stream : List Nat
  detections : List DetEntry
  clientMsgs : List (List Nat)
deriving DecidableEq

/-- Models the body of the start_server while loop, main.py lines 102-138,
for one accepted connection: parse the size header (an unparseable header
raises ValueError, uncaught), send OK FRAME, run receive_frame, take the
detect output (already sorted by confidence descending), and when it is
non-empty call compute_translation_vector on the whole list; then wait for
the OK VECT acknowledgment and send the serialized result. some (.ok msg)
is the result message sent; some (.error e) is an uncaught exception
escaping the loop body; none means a loop inside the body has not returned
within the fuel. -/
def serverHandleConn (fuel : Nat) (c : Conn) : Option (Except PyError (List Nat)) :=
  match serverParseSize c.headerMsg with
  | .error e => some (.error e)
  | .ok n =>
    match receiveFrame0 fuel c.stream n with
    | none => none
    | some _ =>
      let results := pySortedByConfDesc c.detections
      if results = [] then
        match waitingForAckFuel fuel c.clientMsgs (strBytes "VECT") with
        | none => none
        | some _ => some (.ok emptyListMsg)
      else
        match computeTranslationVectorList results with
        | .error e => some (.error e)
        | .ok v =>
          match waitingForAckFuel fuel c.clientMsgs (strBytes "VECT") with
          | none => none
          | some _ => some (.ok (pyStrPair v))

/-- Models the start_server while loop over a list of incoming connections:
the loop body has no try/except, so the first uncaught exception terminates
the loop (and with it the process); otherwise the loop serves the next
accepted connection and the sent result messages accumulate. -/
def serverLoop (fuel : Nat) : List Conn → Option (Except PyError (List (List Nat)))
  | [] => some (.ok [])
  | c :: rest =>
    match serverHandleConn fuel c with
    | none => none
    | some (.error e) => some (.error e)
    | some (.ok msg) =>
      match serverLoop fuel rest with
      | none => none
      | some (.error e) => some (.error e)
      | some (.ok msgs) => some (.ok (msg :: msgs))

/-- Models ast.literal_eval as applied by the client, main_client.py line
148, to the integer-pair payloads the server produces: an opening
parenthesis, a first int, a comma and a space, a second int, and a closing
parenthesis; none models literal_eval raising on any other content. -/
def literalEvalPair (s : List Nat) : Option (Int × Int) :=
  match s with
  | 40 :: rest =>
    let first := rest.takeWhile (fun b => b ≠ 44)
    match rest.dropWhile (fun b => b ≠ 44) with
    | 44 :: 32 :: rest2 =>
      let second := rest2.takeWhile (fun b => b ≠ 41)
      match rest2.dropWhile (fun b => b ≠ 41), pyInt first, pyInt second with
      | [41], some a, some b => some (a, b)
      | _, _, _ => none
    | _ => none
  | _ => none

/-- What the client does with one received result message. -/
inductive ClientAction where
  | actuated (cmd neutral : Int × Int)
  | noDetectionLogged
  | crashed (e : PyError)
deriving DecidableEq

/-- Models main_client.py lines 146-157: when the received string differs
from the empty-collection token the client parses it with literal_eval and
issues channel_override with the first component and zero throttle, then
the neutral command channel_override(0, 0); when it equals the token the
client only logs a no-detection warning and skips actuation. -/
def clientHandleVector (recvString : List Nat) : ClientAction :=
  if recvString ≠ emptyListMsg then
    match literalEvalPair recvString with
    | none => .crashed .valueError
    | some v => .actuated (channel_override v.1 0) (channel_override 0 0)
  else .noDetectionLogged

/-- External inputs of one iteration of the client session loop in
run_catcher_rover: the messages the server sends while the client runs its
first and second waiting_for_ack for OK FRAME, and the serialized result
message the client then reads. Frame capture and sending are local
effects with no failure path relevant to the iteration outcome. -/
structure ClientIterIn where
  ackMsgs1 : List (List Nat)
  ackMsgs2 : List (List Nat)
  resultMsg : List Nat
deriving DecidableEq

/-- Models one iteration of the for loop in run_catcher_rover,
main_client.py lines 120-157: wait for the first OK FRAME acknowledgment,
send the frame, wait for the second OK FRAME, send OK VECT, read the
result through receive_bytes_to_string, and handle it as clientHandleVector
does. none means one of the two acknowledgment waits has not returned
within the fuel; some (.error e) is an exception raised inside the
iteration (literal_eval on a malformed result), uncaught since the loop
body has no try/except; some (.ok a) is the iteration's action. -/
def clientIteration (fuel : Nat) (it : ClientIterIn) : Option (Except PyError ClientAction) :=
  match waitingForAckFuel fuel it.ackMsgs1 (strBytes "FRAME") with
  | none => none
  | some _ =>
    match waitingForAckFuel fuel it.ackMsgs2 (strBytes "FRAME") with
    | none => none
    | some _ =>
      match clientHandleVector (receiveBytesToString it.resultMsg) with
      | .crashed e => some (.error e)
      | a => some (.ok a)

/-- Models the client session loop of run_catcher_rover over the
per-iteration inputs of a mission (the source runs a fixed range of 15
iterations; the list holds one entry per iteration): the loop has no
try/except, so the first exception raised in an iteration terminates the
loop - and the process - and the remaining iterations never run; otherwise
the per-iteration actions accumulate. -/
def clientLoop (fuel : Nat) : List ClientIterIn → Option (Except PyError (List ClientAction))
  | [] => some (.ok [])
  | it :: rest =>
    match clientIteration fuel it with
    | none => none
    | some (.error e) => some (.error e)
    | some (.ok a) =>
      match clientLoop fuel rest with
      | none => none
      | some (.error e) => some (.error e)
      | some (.ok as) => some (.ok (a :: as))

theorem readlineAux_append_drop (k : Nat) (l : List Nat) :
    readlineAux k l ++ l.drop (readlineAux k l).length = l := by
  induction k generalizing l with
  | zero => simp [readlineAux]
  | succ k ih =>
    cases l with
    | nil => simp [readlineAux]
    | cons b rest =>
      by_cases hb : b = 10
      · simp [readlineAux, hb]
      · simp only [readlineAux, if_neg hb, List.length_cons, List.cons_append,
          List.drop_succ_cons, List.cons.injEq, true_and]
        exact ih rest

theorem readlineAux_length_le (k : Nat) (l : List Nat) :
    (readlineAux k l).length ≤ k := by
  induction k generalizing l with
  | zero => simp [readlineAux]
  | succ k ih =>
    cases l with
    | nil => simp [readlineAux]
    | cons b rest =>
      by_cases hb : b = 10
      · simp [readlineAux, hb]
      · simp only [readlineAux, if_neg hb, List.length_cons]
        exact Nat.succ_le_succ (ih rest)

theorem readlineAux_ne_nil (k : Nat) (l : List Nat) (hk : k ≠ 0) (hl : l ≠ []) :
    readlineAux k l ≠ [] := by
  cases k with
  | zero => exact absurd rfl hk
  | succ k =>
    cases l with
    | nil => exact absurd rfl hl
    | cons b rest =>
      by_cases hb : b = 10
      · simp [readlineAux, hb]
      · simp [readlineAux, hb]

theorem toDigitsRevAux_zero (fuel : Nat) : toDigitsRevAux fuel 0 = [] := by
  cases fuel <;> rfl

theorem toDigitsRevAux_stable (fuel : Nat) :
    ∀ fuel' n, n ≤ fuel → n ≤ fuel' → toDigitsRevAux fuel n = toDigitsRevAux fuel' n := by
  induction fuel with
  | zero =>
    intro fuel' n hn _
    interval_cases n
    rw [toDigitsRevAux_zero, toDigitsRevAux_zero]
  | succ fuel ih =>
    intro fuel' n hn hn'
    cases n with
    | zero => rw [toDigitsRevAux_zero, toDigitsRevAux_zero]
    | succ m =>
      cases fuel' with
      | zero => omega
      | succ f =>
        show (m + 1) % 10 :: toDigitsRevAux fuel ((m + 1) / 10) =
          (m + 1) % 10 :: toDigitsRevAux f ((m + 1) / 10)
        have hdiv : (m + 1) / 10 < m + 1 := Nat.div_lt_self (Nat.succ_pos m) (by norm_num)
        rw [ih f ((m + 1) / 10) (by omega) (by omega)]

theorem toDigitsRev_eq (n : Nat) :
    toDigitsRev n = if n = 0 then [] else n % 10 :: toDigitsRev (n / 10) := by
  cases n with
  | zero => rfl
  | succ m =>
    show toDigitsRevAux (m + 1) (m + 1) = _
    have hdiv : (m + 1) / 10 < m + 1 := Nat.div_lt_self (Nat.succ_pos m) (by norm_num)
    show (m + 1) % 10 :: toDigitsRevAux m ((m + 1) / 10) = _
    rw [if_neg (Nat.succ_ne_zero m),
      toDigitsRevAux_stable m ((m + 1) / 10) ((m + 1) / 10) (by omega) le_rfl]
    rfl

theorem toDigitsRev_mem_lt (n : Nat) : ∀ d ∈ toDigitsRev n, d < 10 := by
  induction n using Nat.strong_induction_on with
  | _ n ih =>
    intro d hd
    rw [toDigitsRev_eq] at hd
    by_cases hn : n = 0
    · simp [hn] at hd
    · rw [if_neg hn] at hd
      rcases List.mem_cons.mp hd with h | h
      · rw [h]; exact Nat.mod_lt n (by norm_num)
      · exact ih (n / 10) (Nat.div_lt_self (Nat.pos_of_ne_zero hn) (by norm_num)) d h

theorem toDigitsRev_ne_nil (n : Nat) (hn : n ≠ 0) : toDigitsRev n ≠ [] := by
  rw [toDigitsRev_eq, if_neg hn]
  exact List.cons_ne_nil _ _

theorem parseDigitsAux_append (acc : Nat) (l1 l2 : List Nat) :
    parseDigitsAux acc (l1 ++ l2) =
      (parseDigitsAux acc l1).bind (fun a => parseDigitsAux a l2) := by
  induction l1 generalizing acc with
  | nil => simp [parseDigitsAux]
  | cons b rest ih =>
    cases hdv : digitVal b with
    | none => simp [parseDigitsAux, hdv]
    | some d =>
      simp only [List.cons_append, parseDigitsAux, hdv]
      exact ih (10 * acc + d)

theorem digitVal_of_lt (d : Nat) (hd : d < 10) : digitVal (48 + d) = some d := by
  unfold digitVal
  rw [if_pos (by omega)]
  congr 1
  omega

theorem parseDigitsAux_toDigits (n : Nat) :
    ∀ acc, parseDigitsAux acc ((toDigitsRev n).reverse.map (fun d => 48 + d)) =
      some (acc * 10 ^ (toDigitsRev n).length + n) := by
  induction n using Nat.strong_induction_on with
  | _ n ih =>
    intro acc
    by_cases hn : n = 0
    · subst hn
      simp [toDigitsRev, toDigitsRevAux, parseDigitsAux]
    · rw [toDigitsRev_eq, if_neg hn]
      have hdiv : n / 10 < n := Nat.div_lt_self (Nat.pos_of_ne_zero hn) (by norm_num)
      rw [List.reverse_cons, List.map_append, parseDigitsAux_append, ih (n / 10) hdiv acc]
      have hmod : n % 10 < 10 := Nat.mod_lt n (by norm_num)
      show parseDigitsAux _ [48 + n % 10] = _
      unfold parseDigitsAux
      rw [digitVal_of_lt (n % 10) hmod]
      show some (10 * (acc * 10 ^ (toDigitsRev (n / 10)).length + n / 10) + n % 10) = _
      congr 1
      have hxy : 10 * (n / 10) + n % 10 = n := Nat.div_add_mod n 10
      rw [List.length_cons]
      ring_nf
      omega

theorem natToDecimalBytes_mem (n : Nat) : ∀ b ∈ natToDecimalBytes n, 48 ≤ b ∧ b ≤ 57 := by
  intro b hb
  unfold natToDecimalBytes at hb
  by_cases hn : n = 0
  · rw [if_pos hn] at hb
    simp at hb
    omega
  · rw [if_neg hn] at hb
    obtain ⟨d, hd, hbd⟩ := List.mem_map.mp hb
    have : d < 10 := toDigitsRev_mem_lt n d (List.mem_reverse.mp hd)
    omega

theorem natToDecimalBytes_ne_nil (n : Nat) : natToDecimalBytes n ≠ [] := by
  unfold natToDecimalBytes
  by_cases hn : n = 0
  · rw [if_pos hn]; exact List.cons_ne_nil _ _
  · rw [if_neg hn]
    simp only [ne_eq, List.map_eq_nil_iff, List.reverse_eq_nil_iff]
    exact toDigitsRev_ne_nil n hn

theorem parseDigits_natToDecimalBytes (n : Nat) :
    parseDigits (natToDecimalBytes n) = some n := by
  by_cases hn : n = 0
  · subst hn; decide
  · unfold parseDigits
    rw [if_neg (natToDecimalBytes_ne_nil n)]
    unfold natToDecimalBytes
    rw [if_neg hn, parseDigitsAux_toDigits n 0]
    simp

theorem pyInt_natToDecimalBytes (n : Nat) :
    pyInt (natToDecimalBytes n) = some (n : Int) := by
  unfold pyInt
  cases h : natToDecimalBytes n with
  | nil => exact absurd h (natToDecimalBytes_ne_nil n)
  | cons b bs =>
    have hb : 48 ≤ b ∧ b ≤ 57 :=
      natToDecimalBytes_mem n b (h ▸ List.mem_cons_self b bs)
    rw [List.headD_cons, if_neg (by omega), ← h, parseDigits_natToDecimalBytes n]
    rfl

theorem receiveBytesToString_natToDecimalBytes (n : Nat) :
    receiveBytesToString (natToDecimalBytes n) = natToDecimalBytes n := by
  unfold receiveBytesToString
  rw [List.filter_eq_self]
  intro b hb
  have := natToDecimalBytes_mem n b hb
  simp only [ne_eq, decide_eq_true_eq]
  omega

theorem serverParseSize_sendFrameSizeMsg (n : Nat) :
    serverParseSize (sendFrameSizeMsg n) = .ok (n : Int) := by
  unfold serverParseSize sendFrameSizeMsg
  rw [receiveBytesToString_natToDecimalBytes, pyInt_natToDecimalBytes]

theorem sendFrameChunksAux_flatten (fuel : Nat) :
    ∀ l : List Nat, l.length ≤ fuel → (sendFrameChunksAux fuel l).flatten = l := by
  induction fuel with
  | zero =>
    intro l hl
    rw [List.length_eq_zero.mp (Nat.le_zero.mp hl)]
    rfl
  | succ fuel ih =>
    intro l hl
    by_cases h : l = []
    · simp [sendFrameChunksAux, h]
    · have hc : readlineChunk l ≠ [] := readlineAux_ne_nil 1024 l (by norm_num) h
      have hcpos : 0 < (readlineChunk l).length := List.length_pos.mpr hc
      have hlpos : 0 < l.length := List.length_pos.mpr h
      simp only [sendFrameChunksAux, if_neg h, List.flatten_cons]
      rw [ih (l.drop (readlineChunk l).length) (by simp [List.length_drop]; omega)]
      exact readlineAux_append_drop 1024 l

theorem sendFrameStream_id (l : List Nat) : sendFrameStream l = l :=
  sendFrameChunksAux_flatten l.length l le_rfl

theorem sendFrameChunksAux_mem_le (fuel : Nat) :
    ∀ (l : List Nat) (c : List Nat), c ∈ sendFrameChunksAux fuel l → c.length ≤ 1024 := by
  induction fuel with
  | zero => intro l c hc; simp [sendFrameChunksAux] at hc
  | succ fuel ih =>
    intro l c hc
    by_cases h : l = []
    · simp [sendFrameChunksAux, h] at hc
    · simp only [sendFrameChunksAux, if_neg h, List.mem_cons] at hc
      rcases hc with hc | hc
      · rw [hc]; exact readlineAux_length_le 1024 l
      · exact ih _ c hc

theorem receiveFrameFuel_complete (fuel : Nat) :
    ∀ st : RecvState, st.imgSize ≤ st.frameSize →
    (st.frameSize - st.imgSize).toNat ≤ st.stream.length →
    (st.frameSize - st.imgSize).toNat < fuel →
    receiveFrameFuel fuel st =
      some (st.fileBytes ++ st.stream.take (st.frameSize - st.imgSize).toNat,
            st.stream.drop (st.frameSize - st.imgSize).toNat) := by
  induction fuel with
  | zero => intro st _ _ h3; omega
  | succ fuel ih =>
    intro st h1 h2 h3
    obtain ⟨stream, fs, is, fb⟩ := st
    simp only at h1 h2 h3 ⊢
    by_cases hlt : is < fs
    · have hreq : (recvRequest (fs - is)).toNat = min (fs - is).toNat 1024 := by
        unfold recvRequest
        by_cases hr : fs - is < 1024
        · rw [if_pos hr]; omega
        · rw [if_neg hr]; omega
      have hstep : receiveStep ⟨stream, fs, is, fb⟩ =
          ⟨stream.drop (min (fs - is).toNat 1024), fs,
           is + ((stream.take (min (fs - is).toNat 1024)).length : Int),
           fb ++ stream.take (min (fs - is).toNat 1024)⟩ := by
        simp only [receiveStep, if_pos hlt, hreq]
      have hdle : min (fs - is).toNat 1024 ≤ stream.length := by omega
      have hdlen : (stream.take (min (fs - is).toNat 1024)).length =
          min (fs - is).toNat 1024 := by
        rw [List.length_take]; omega
      have hrun : receiveFrameFuel (fuel + 1) ⟨stream, fs, is, fb⟩ =
          receiveFrameFuel fuel (receiveStep ⟨stream, fs, is, fb⟩) := by
        simp only [receiveFrameFuel, if_pos hlt]
      rw [hrun, hstep, hdlen]
      have hih := ih ⟨stream.drop (min (fs - is).toNat 1024), fs,
          is + ((min (fs - is).toNat 1024 : Nat) : Int),
          fb ++ stream.take (min (fs - is).toNat 1024)⟩
        (by simp only; omega)
        (by simp only [List.length_drop]; omega)
        (by simp only; omega)
      simp only at hih
      rw [hih]
      have hkk : (fs - (is + ((min (fs - is).toNat 1024 : Nat) : Int))).toNat =
          (fs - is).toNat - min (fs - is).toNat 1024 := by omega
      rw [hkk]
      congr 2
      · rw [List.append_assoc]
        congr 1
        rw [← List.take_add]
        congr 1
        omega
      · rw [List.drop_drop]
        congr 1
        omega
    · have hk : (fs - is).toNat = 0 := by omega
      simp only [receiveFrameFuel, if_neg hlt, hk, List.take_zero, List.drop_zero,
        List.append_nil]

theorem receiveFrameFuel_of_short (fuel : Nat) :
    ∀ st : RecvState, (st.stream.length : Int) < st.frameSize - st.imgSize →
    receiveFrameFuel fuel st = none := by
  induction fuel with
  | zero => intro st _; rfl
  | succ fuel ih =>
    intro st h
    obtain ⟨stream, fs, is, fb⟩ := st
    simp only at h
    have hlt : is < fs := by omega
    simp only [receiveFrameFuel, if_pos hlt]
    apply ih
    simp only [receiveStep, if_pos hlt, List.length_drop, List.length_take]
    omega

theorem receiveFrameFuel_prefix (fuel : Nat) :
    ∀ (st : RecvState) (frame rest : List Nat),
    receiveFrameFuel fuel st = some (frame, rest) →
    ∃ consumed : List Nat, st.stream = consumed ++ rest ∧
      consumed.length ≤ (st.frameSize - st.imgSize).toNat := by
  induction fuel with
  | zero => intro st frame rest h; exact absurd h (by simp [receiveFrameFuel])
  | succ fuel ih =>
    intro st frame rest h
    obtain ⟨stream, fs, is, fb⟩ := st
    by_cases hlt : is < fs
    · simp only [receiveFrameFuel, if_pos hlt] at h
      obtain ⟨consumed, hc1, hc2⟩ := ih _ frame rest h
      simp only [receiveStep, if_pos hlt, List.length_take] at hc1 hc2
      refine ⟨stream.take (recvRequest (fs - is)).toNat ++ consumed, ?_, ?_⟩
      · simp only
        rw [List.append_assoc, ← hc1, List.take_append_drop]
      · simp only [List.length_append, List.length_take]
        have hreq : (recvRequest (fs - is)).toNat ≤ (fs - is).toNat := by
          unfold recvRequest
          by_cases hr : fs - is < 1024
          · rw [if_pos hr]
          · rw [if_neg hr]; omega
        omega
    · simp only [receiveFrameFuel, if_neg hlt, Option.some.injEq, Prod.mk.injEq] at h
      exact ⟨[], by simp [h.2], by simp⟩

theorem ackMsg_ne_nil (exptype : List Nat) : ackMsg exptype ≠ [] := by
  simp [ackMsg, strBytes]

theorem waitingForAckFuel_none (msgs : List (List Nat)) (exptype : List Nat) (fuel : Nat)
    (h : ∀ m ∈ msgs, m ≠ ackMsg exptype) :
    waitingForAckFuel fuel msgs exptype = none := by
  induction fuel generalizing msgs with
  | zero => rfl
  | succ fuel ih =>
    cases msgs with
    | nil =>
      simp only [waitingForAckFuel, List.headD_nil, List.tail_nil]
      rw [if_neg (Ne.symm (ackMsg_ne_nil exptype))]
      exact ih [] (by simp)
    | cons m rest =>
      simp only [waitingForAckFuel, List.headD_cons, List.tail_cons]
      rw [if_neg (h m (List.mem_cons_self m rest))]
      exact ih rest (fun x hx => h x (List.mem_cons_of_mem m hx))

/-- C1: for every frame byte length N, a complete exchange delivers exactly
N bytes to the server's frame buffer, byte-for-byte identical to the
client's input, including N = 0: the server parses the decimal-ASCII size
header sent by send_frame_size back to N, the byte stream produced by the
readline(1024) chunking of send_frame is exactly the frame (every chunk at
most 1024 bytes), and receive_frame run on that stream terminates with
precisely the frame bytes in the frame file and nothing left over. -/
theorem full_exchange_delivers_frame_exactly (frame : List Nat) :
    serverParseSize (sendFrameSizeMsg frame.length) = .ok (frame.length : Int) ∧
    sendFrameStream frame = frame ∧
    receiveFrame0 (frame.length + 1) (sendFrameStream frame) (frame.length : Int) =
      some (frame, []) ∧
    (sendFrameChunks frame).all (fun c => decide (c.length ≤ 1024)) = true := by
  refine ⟨serverParseSize_sendFrameSizeMsg frame.length, sendFrameStream_id frame, ?_, ?_⟩
  · unfold receiveFrame0
    rw [sendFrameStream_id]
    have h := receiveFrameFuel_complete (frame.length + 1)
      ⟨frame, (frame.length : Int), 0, []⟩
      (by simp only; omega)
      (by simp only; omega)
      (by simp only; omega)
    simp only at h
    rw [h]
    have hN : ((frame.length : Int) - 0).toNat = frame.length := by omega
    rw [hN, List.take_length, List.drop_length, List.nil_append]
  · rw [List.all_eq_true]
    intro c hc
    rw [decide_eq_true_eq]
    exact sendFrameChunksAux_mem_le frame.length frame c hc

/-- C2 counterexample: at the concrete input of an announced size of 5 with
the connection closed after delivering only 4 bytes, receive_frame does not
surface any error: after 1000 loop iterations it has not returned (the
source can raise nothing, a TruncatedFrameError class does not even exist
in the repository), and the loop state reached once the stream is exhausted
is a fixpoint of the loop body while the loop condition still holds, so the
loop can never exit. -/
theorem receive_frame_truncated_counterexample :
    receiveFrame0 1000 [1, 2, 3, 4] 5 = none ∧
    receiveStep ⟨[], 5, 4, [1, 2, 3, 4]⟩ = ⟨[], 5, 4, [1, 2, 3, 4]⟩ ∧
    (4 : Int) < 5 := by
  refine ⟨?_, by decide, by decide⟩
  unfold receiveFrame0
  exact receiveFrameFuel_of_short 1000 ⟨[1, 2, 3, 4], 5, 0, []⟩ (by norm_num)

/-- C2 amended: when the connection closes after delivering fewer bytes
than announced, receive_frame never yields a partial frame to the caller -
but not by raising TruncatedFrameError (it raises nothing); the loop simply
never returns, spinning forever on empty reads, at every fuel bound. -/
theorem receive_frame_truncated_never_returns (stream : List Nat) (n : Int) (fuel : Nat)
    (h : (stream.length : Int) < n) :
    receiveFrame0 fuel stream n = none := by
  unfold receiveFrame0
  apply receiveFrameFuel_of_short
  simp only
  omega

/-- Witness for the C2 amended theorem at a concrete truncated stream. -/
theorem receive_frame_truncated_never_returns_witness :
    receiveFrame0 77 [1, 2, 3, 4] 5 = none :=
  receive_frame_truncated_never_returns [1, 2, 3, 4] 5 77 (by decide)

/-- C4: compute_translation_vector, applied to a detection entry carrying
bounding box (x0, y0, x1, y1) and to frame dimensions (w, h), returns
dx = (x0 + (x1 - x0) / 2) - w / 2 and dy = (y0 + (y1 - y0) / 2) - h / 2
with truncating integer division, and in particular maps image size
(640, 480) with box (300, 200, 340, 260) to (0, -10). -/
theorem compute_translation_vector_formula :
    (∀ (label : List Nat) (conf : ℚ) (x0 y0 x1 y1 w h : Int),
      computeTranslationVector ⟨label, conf, (x0, y0, x1, y1)⟩ (w, h) =
        (x0 + Int.tdiv (x1 - x0) 2 - Int.tdiv w 2,
         y0 + Int.tdiv (y1 - y0) 2 - Int.tdiv h 2)) ∧
    computeTranslationVector ⟨[], 1, (300, 200, 340, 260)⟩ (640, 480) = (0, -10) := by
  exact ⟨fun label conf x0 y0 x1 y1 w h => rfl, by decide⟩

/-- C5 counterexample: a silent peer (closed or idle connection: every recv
yields the empty message) leaves waiting_for_ack still polling after 500
reads, and a peer sending 500 non-matching messages likewise; no Timeout
abort ever happens - the function has no timeout parameter and no error
exit at all. -/
theorem waiting_for_ack_silent_peer_counterexample :
    waitingForAckFuel 500 [] (strBytes "FRAME") = none ∧
    waitingForAckFuel 500 (List.replicate 500 (strBytes "NOISE")) (strBytes "FRAME") = none := by
  constructor
  · exact waitingForAckFuel_none [] _ 500 (by simp)
  · refine waitingForAckFuel_none _ _ 500 ?_
    intro m hm
    rw [List.eq_of_mem_replicate hm]
    decide

/-- C5 amended: waiting_for_ack discards every message that differs from
the expected acknowledgment and keeps polling with no bound: as long as the
expected token has not arrived the call has not returned, for every number
of reads. The wait is not bounded by any timeout and no Timeout error is
ever surfaced. -/
theorem waiting_for_ack_unbounded (msgs : List (List Nat)) (exptype : List Nat) (fuel : Nat)
    (h : ∀ m ∈ msgs, m ≠ ackMsg exptype) :
    waitingForAckFuel fuel msgs exptype = none :=
  waitingForAckFuel_none msgs exptype fuel h

/-- Witness for the C5 amended theorem at two concrete near-miss messages. -/
theorem waiting_for_ack_unbounded_witness :
    waitingForAckFuel 33 [strBytes "OK FRAM", strBytes "ok vect"] (strBytes "VECT") = none :=
  waiting_for_ack_unbounded [strBytes "OK FRAM", strBytes "ok vect"] (strBytes "VECT") 33
    (by decide)

/-- C3: at the failing input of three detections with confidences 0.9,
0.95 and 0.4 (boxes B1, B2, B3), the sorted detect output is B2, B1, B3,
but the entry the server hands to the translation computation is
results[2] - the third-ranked, lowest-confidence entry (B3's tuple), not
the top-ranked B2 - and the computation then raises ValueError converting
that entry's label with int(), contradicting the docstring of
compute_translation_vector, which expects a single (label, confidence,
coordinates) tuple rather than the whole list start_server passes it. -/
theorem translation_uses_third_ranked_entry :
    pySortedByConfDesc
        [⟨strBytes "a", 0.9, (10, 20, 30, 40)⟩,
         ⟨strBytes "b", 0.95, (50, 60, 70, 80)⟩,
         ⟨strBytes "c", 0.4, (300, 200, 340, 260)⟩] =
      [⟨strBytes "b", 0.95, (50, 60, 70, 80)⟩,
       ⟨strBytes "a", 0.9, (10, 20, 30, 40)⟩,
       ⟨strBytes "c", 0.4, (300, 200, 340, 260)⟩] ∧
    (pySortedByConfDesc
        [⟨strBytes "a", 0.9, (10, 20, 30, 40)⟩,
         ⟨strBytes "b", 0.95, (50, 60, 70, 80)⟩,
         ⟨strBytes "c", 0.4, (300, 200, 340, 260)⟩]).get? 2 =
      some ⟨strBytes "c", 0.4, (300, 200, 340, 260)⟩ ∧
    computeTranslationVectorList
        (pySortedByConfDesc
          [⟨strBytes "a", 0.9, (10, 20, 30, 40)⟩,
           ⟨strBytes "b", 0.95, (50, 60, 70, 80)⟩,
           ⟨strBytes "c", 0.4, (300, 200, 340, 260)⟩]) = .error .valueError := by
  have hsort : pySortedByConfDesc
      [⟨strBytes "a", 0.9, (10, 20, 30, 40)⟩,
       ⟨strBytes "b", 0.95, (50, 60, 70, 80)⟩,
       ⟨strBytes "c", 0.4, (300, 200, 340, 260)⟩] =
      [⟨strBytes "b", 0.95, (50, 60, 70, 80)⟩,
       ⟨strBytes "a", 0.9, (10, 20, 30, 40)⟩,
       ⟨strBytes "c", 0.4, (300, 200, 340, 260)⟩] := by
    norm_num [pySortedByConfDesc, pyInsertByConfDesc]
  refine ⟨hsort, ?_, ?_⟩
  · rw [hsort]
    rfl
  · rw [hsort]
    rfl

/-- C6 counterexample: at the concrete size header of minus five, the
server accepts the negative size (int parses it), sends OK FRAME and
proceeds; no ProtocolError is raised and the exchange is not aborted. -/
theorem negative_size_header_accepted :
    serverParseSize (strBytes "-5") = .ok (-5) := by decide

/-- C6 amended: a size-header failure is never a ProtocolError (the only
error the parse step can produce is the uncaught ValueError from int());
a non-numeric header raises that ValueError, which escapes the exchange
uncaught; and a negative header is accepted outright, after which
receive_frame performs no reads and yields an empty frame. -/
theorem size_header_errors_uncaught :
    (∀ (msg : List Nat) (e : PyError), serverParseSize msg = .error e → e = .valueError) ∧
    serverParseSize (strBytes "abc") = .error .valueError ∧
    serverHandleConn 3 ⟨strBytes "abc", [], [], []⟩ = some (.error .valueError) ∧
    serverParseSize (strBytes "-5") = .ok (-5) ∧
    receiveFrame0 1 [9, 9] (-5) = some ([], [9, 9]) := by
  refine ⟨?_, by decide, by decide, by decide, by decide⟩
  intro msg e h
  unfold serverParseSize at h
  cases hp : pyInt (receiveBytesToString msg) with
  | none => rw [hp] at h; injection h with h; exact h.symm
  | some n => rw [hp] at h; exact absurd h (by simp)

/-- Witness for the C6 amended theorem at a concrete non-numeric header. -/
theorem size_header_errors_uncaught_witness :
    PyError.valueError = PyError.valueError :=
  size_header_errors_uncaught.1 (strBytes "xy") PyError.valueError (by decide)

/-- C7 counterexample: on the server side, a malformed size header on the
first accepted connection terminates the server loop with an uncaught
ValueError, and the following well-formed connection - which on its own
would complete and be answered with the empty result - is never served; on
the client side, a malformed result message in the first iteration makes
literal_eval raise, terminating the client loop, and the following
iteration - which on its own would complete as a logged no-detection - is
never run. Neither failure is recovered at its loop boundary. -/
theorem session_loops_crash_counterexample :
    serverLoop 5 [⟨strBytes "bad header", [], [], []⟩,
      ⟨strBytes "0", [], [], [strBytes "OK VECT"]⟩] = some (.error .valueError) ∧
    serverLoop 5 [⟨strBytes "0", [], [], [strBytes "OK VECT"]⟩] =
      some (.ok [strBytes "[]"]) ∧
    clientLoop 5 [⟨[strBytes "OK FRAME"], [strBytes "OK FRAME"], strBytes "garbage"⟩,
      ⟨[strBytes "OK FRAME"], [strBytes "OK FRAME"], strBytes "[]"⟩] =
      some (.error .valueError) ∧
    clientLoop 5 [⟨[strBytes "OK FRAME"], [strBytes "OK FRAME"], strBytes "[]"⟩] =
      some (.ok [.noDetectionLogged]) := by
  refine ⟨by decide, by decide, by decide, by decide⟩

/-- C7 amended: no error arising during one exchange is recovered at
either session-loop boundary: neither loop has a try/except, so on the
server the first connection whose exchange raises terminates the whole
loop with that exception and no later accepted connection is served, and
on the client the first iteration that raises terminates the whole loop
with that exception and no later iteration runs. -/
theorem session_loops_die_on_first_error :
    (∀ (fuel : Nat) (c : Conn) (rest : List Conn) (e : PyError),
      serverHandleConn fuel c = some (.error e) →
      serverLoop fuel (c :: rest) = some (.error e)) ∧
    (∀ (fuel : Nat) (it : ClientIterIn) (rest : List ClientIterIn) (e : PyError),
      clientIteration fuel it = some (.error e) →
      clientLoop fuel (it :: rest) = some (.error e)) := by
  constructor
  · intro fuel c rest e h
    simp [serverLoop, h]
  · intro fuel it rest e h
    simp [clientLoop, h]

/-- Witness for the C7 amended theorem: a concrete malformed size header
killing the server loop before its second connection, and a concrete
malformed result message killing the client loop before its second
iteration. -/
theorem session_loops_die_on_first_error_witness :
    serverLoop 5 [⟨strBytes "abc", [], [], []⟩,
      ⟨strBytes "0", [], [], [strBytes "OK VECT"]⟩] = some (.error .valueError) ∧
    clientLoop 5 [⟨[strBytes "OK FRAME"], [strBytes "OK FRAME"], strBytes "nope"⟩,
      ⟨[strBytes "OK FRAME"], [strBytes "OK FRAME"], strBytes "[]"⟩] =
      some (.error .valueError) :=
  ⟨session_loops_die_on_first_error.1 5 ⟨strBytes "abc", [], [], []⟩
      [⟨strBytes "0", [], [], [strBytes "OK VECT"]⟩] .valueError (by decide),
   session_loops_die_on_first_error.2 5
      ⟨[strBytes "OK FRAME"], [strBytes "OK FRAME"], strBytes "nope"⟩
      [⟨[strBytes "OK FRAME"], [strBytes "OK FRAME"], strBytes "[]"⟩] .valueError (by decide)⟩

/-- C8: each actuation channel equals clamp(1500 + value, 1000, 2000),
every issued steering and throttle value lies within 1000 and 2000, and
input 700 yields a steering pulse of 2000, not 2200. -/
theorem channel_override_clamped :
    (∀ yaw speed : Int,
      channel_override yaw speed =
        (min (max (1500 + yaw) 1000) 2000, min (max (1500 + speed) 1000) 2000) ∧
      1000 ≤ (channel_override yaw speed).1 ∧ (channel_override yaw speed).1 ≤ 2000 ∧
      1000 ≤ (channel_override yaw speed).2 ∧ (channel_override yaw speed).2 ≤ 2000) ∧
    channel_override 700 0 = (2000, 1500) := by
  refine ⟨fun yaw speed => ⟨rfl, ?_, ?_, ?_, ?_⟩, by decide⟩ <;>
    simp [channel_override]

/-- C9: whenever the detection list of a successfully served connection is
empty, the result message sent on the wire is exactly the two-byte token
of str of the empty list, and on receiving that token the client skips
actuation and logs the no-detection event instead of parsing a vector. -/
theorem empty_detection_serializes_and_skips :
    (∀ (fuel : Nat) (c : Conn) (msg : List Nat), c.detections = [] →
      serverHandleConn fuel c = some (.ok msg) → msg = emptyListMsg) ∧
    clientHandleVector emptyListMsg = .noDetectionLogged ∧
    emptyListMsg = strBytes "[]" := by
  refine ⟨?_, by decide, rfl⟩
  intro fuel c msg hdet h
  unfold serverHandleConn at h
  rw [hdet] at h
  cases hps : serverParseSize c.headerMsg with
  | error e => rw [hps] at h; simp at h
  | ok n =>
    rw [hps] at h
    simp only [] at h
    cases hrf : receiveFrame0 fuel c.stream n with
    | none => rw [hrf] at h; simp at h
    | some pr =>
      rw [hrf] at h
      simp only [pySortedByConfDesc, if_true] at h
      cases hack : waitingForAckFuel fuel c.clientMsgs (strBytes "VECT") with
      | none => rw [hack] at h; simp at h
      | some rest =>
        rw [hack] at h
        simp only [Option.some.injEq, Except.ok.injEq] at h
        exact h.symm

/-- Witness for the C9 server conjunct at a concrete empty-detection
connection that completes successfully. -/
theorem empty_detection_serializes_and_skips_witness :
    strBytes "[]" = emptyListMsg :=
  empty_detection_serializes_and_skips.1 2 ⟨strBytes "0", [], [], [strBytes "OK VECT"]⟩
    (strBytes "[]") rfl (by decide)

/-- C10: each receive_frame read requests exactly min(remaining, 1024)
bytes; an announced size of zero or less causes no reads and an empty
frame file with the stream untouched; and whenever the loop returns, the
unread rest of the stream is a suffix witnessing that at most the
announced number of bytes was consumed. -/
theorem receive_frame_request_bounds :
    (∀ remain : Int, 0 < remain → recvRequest remain = min remain 1024) ∧
    (∀ (stream : List Nat) (n : Int), n ≤ 0 → receiveFrame0 1 stream n = some ([], stream)) ∧
    (∀ (fuel : Nat) (stream frame rest : List Nat) (n : Int),
      receiveFrame0 fuel stream n = some (frame, rest) →
      stream.drop (stream.length - rest.length) = rest ∧
      stream.length - rest.length ≤ n.toNat) := by
  refine ⟨?_, ?_, ?_⟩
  · intro remain hr
    unfold recvRequest
    split <;> omega
  · intro stream n hn
    unfold receiveFrame0 receiveFrameFuel
    rw [if_neg (by simp only; omega)]
  · intro fuel stream frame rest n h
    obtain ⟨consumed, hc1, hc2⟩ :=
      receiveFrameFuel_prefix fuel ⟨stream, n, 0, []⟩ frame rest h
    simp only at hc1 hc2
    constructor
    · rw [hc1, List.length_append]
      have hlen : consumed.length + rest.length - rest.length = consumed.length := by omega
      rw [hlen, List.drop_left]
    · rw [hc1, List.length_append]
      omega

/-- Witness for C10 at concrete inputs: a request of 5 remaining bytes, a
negative announced size, and a stream longer than the announced size of
which only the announced single byte is consumed. -/
theorem receive_frame_request_bounds_witness :
    recvRequest 5 = min 5 1024 ∧
    receiveFrame0 1 [3] (-2) = some ([], [3]) ∧
    (([9, 9, 9] : List Nat).drop (([9, 9, 9] : List Nat).length - ([9, 9] : List Nat).length) =
        [9, 9] ∧
      ([9, 9, 9] : List Nat).length - ([9, 9] : List Nat).length ≤ (1 : Int).toNat) :=
  ⟨receive_frame_request_bounds.1 5 (by decide),
   receive_frame_request_bounds.2.1 [3] (-2) (by decide),
   receive_frame_request_bounds.2.2 2 [9, 9, 9] [9] [9, 9] 1 (by decide)⟩

end CatcherRover
